import Mathlib

/-!
Verification of the pdfcpu booklet page-imposition ordering engine and the
LZW filter parameter handling, against the repository's conformance test
suite (`bookletTestCases` / `TestBookletPageOrder`) and `filter/lzwDecode.go`.

The imposition engine itself (`PDFBookletConfig`, `sortSelectedPagesForBooklet`)
is not part of the given sources; only its conformance tests are.  The engine
is therefore modelled from the specification, with the test suite's reference
vectors as the authoritative oracle, as the specification itself demands.
-/

namespace Pdfcpu

/-! ## Generic list helpers -/

/-- Splits a character list on a separator character (like Go's strings.Split). -/
def splitCh (sep : Char) : List Char → List (List Char)
  | [] => [[]]
  | c :: cs =>
    let r := splitCh sep cs
    if c = sep then [] :: r
    else
      match r with
      | [] => [[c]]
      | t :: ts => (c :: t) :: ts

/-- Removes leading and trailing spaces (like Go's strings.TrimSpace, ASCII space only). -/
def trimSp (l : List Char) : List Char :=
  ((l.dropWhile (· = ' ')).reverse.dropWhile (· = ' ')).reverse

/-- The elements at even indices 0, 2, 4, … of a list. -/
def altEvens {α : Type} : List α → List α
  | [] => []
  | [a] => [a]
  | a :: _ :: rest => a :: altEvens rest

/-- The elements at odd indices 1, 3, 5, … of a list. -/
def altOdds {α : Type} (l : List α) : List α := altEvens l.tail

/-- Column-major traversal of a grid with two columns stored row-major:
first column (even indices) followed by second column (odd indices). -/
def colMajor2 {α : Type} (l : List α) : List α := altEvens l ++ altOdds l

/-- Swaps the two entries of each consecutive pair (mirrors each 2-wide row). -/
def swapAdj {α : Type} : List α → List α
  | a :: b :: rest => b :: a :: swapAdj rest
  | l => l

/-- Cuts a list into `k` consecutive chunks of `c` elements each. -/
def chunksGo {α : Type} (c : Nat) : Nat → List α → List (List α)
  | 0, _ => []
  | k + 1, l => l.take c :: chunksGo c k (l.drop c)

/-- The consecutive faces (chunks of `c` slots) of a flat slot list. -/
def faceChunks {α : Type} (c : Nat) (l : List α) : List (List α) :=
  chunksGo c (l.length / c) l

/-- Greedy check that a list can be partitioned into pairs each summing to `t`
(the partner of a value is unique, so the greedy strategy is complete).
The first argument of the recursion is fuel, instantiated with the length. -/
def pairableF (t : Nat) : Nat → List Nat → Bool
  | _, [] => true
  | 0, _ :: _ => false
  | fuel + 1, a :: rest =>
    match rest.find? (fun b => a + b == t) with
    | none => false
    | some b => pairableF t fuel (rest.erase b)

/-- Decides whether a list can be partitioned into pairs each summing to `t`. -/
def pairable (t : Nat) (l : List Nat) : Bool := pairableF t l.length l

/-- Checks that a list is a flat sequence of consecutive pairs each summing to `t`. -/
def sumPairs (t : Nat) : List Nat → Bool
  | [] => true
  | [_] => false
  | a :: b :: rest => a + b == t && sumPairs t rest

/-- Checks that every output sheet (chunk of `cap` slots) of a page-number list
only carries pages from its own consecutive window `cap*j+1 … cap*j+cap`. -/
def windowLocal (cap : Nat) (out : List Nat) : Bool :=
  ((List.range (out.length / cap)).zip (faceChunks cap out)).all
    (fun p => p.2.all (fun q => decide (cap * p.1 + 1 ≤ q) && decide (q ≤ cap * p.1 + cap)))

/-! ## LZW filter parameters (embedded from src/filter/lzwDecode.go)

`Encode` and `Decode` read the "EarlyChange" entry of the filter's parameter
map (`f.parms : map[string]int`), default it to 1 when absent, and construct
the LZW writer/reader with the boolean flag `ec == 1`.  The byte-stream
processing itself (`io.Copy` through the lzw reader/writer) is an external
collaborator; the embedded content is the flag computation. -/

/-- The early-change flag `Encode` passes to `lzw.NewWriter`:
`ec, ok := f.parms["EarlyChange"]; if !ok { ec = 1 }; … ec == 1`. -/
def lzwEncodeEarlyChange (parms : List (String × Int)) : Bool :=
  let ec := match parms.lookup "EarlyChange" with
    | some v => v
    | none => 1
  ec == 1

/-- The early-change flag `Decode` passes to `lzw.NewReader`:
`ec, ok := f.parms["EarlyChange"]; if !ok { ec = 1 }; … ec == 1`. -/
def lzwDecodeEarlyChange (parms : List (String × Int)) : Bool :=
  let ec := match parms.lookup "EarlyChange" with
    | some v => v
    | none => 1
  ec == 1

/-! ## Imposition configuration (ConfigResolver)

Modelled from the spec: the engine's configuration resolution
(`PDFBookletConfig` / `resolve`) is not among the given sources. -/

inductive BookletBinding
  | long
  | short
deriving DecidableEq

inductive BookletStyle
  | booklet
  | bookletAdvanced
  | perfectBound
deriving DecidableEq

inductive PaperOrientation
  | portrait
  | landscape
deriving DecidableEq

structure ImpositionConfig where
  nupCount : Nat
  style : BookletStyle
  bindingEdge : BookletBinding
  orientation : PaperOrientation
deriving DecidableEq

inductive ConfigError
  | invalidConfig
deriving DecidableEq

instance {ε α : Type} [DecidableEq ε] [DecidableEq α] : DecidableEq (Except ε α) :=
  fun a b =>
    match a, b with
    | .ok x, .ok y =>
      if h : x = y then isTrue (by rw [h]) else isFalse (by simp [h])
    | .error x, .error y =>
      if h : x = y then isTrue (by rw [h]) else isFalse (by simp [h])
    | .ok _, .error _ => isFalse (by simp)
    | .error _, .ok _ => isFalse (by simp)

/-- Modelled from the spec: recognized `btype` tokens. -/
def styleOfToken (s : String) : Option BookletStyle :=
  if s == "booklet" then some .booklet
  else if s == "bookletadvanced" then some .bookletAdvanced
  else if s == "perfectbound" then some .perfectBound
  else none

/-- Modelled from the spec: recognized `binding` tokens. -/
def bindingOfToken (s : String) : Option BookletBinding :=
  if s == "long" then some .long
  else if s == "short" then some .short
  else none

/-- Modelled from the spec: a papersize token encodes a base size plus an
optional landscape suffix; absence of the suffix means portrait. -/
def orientationOfPapersize (s : String) : PaperOrientation :=
  if s.data.getLast? == some 'L' then .landscape else .portrait

/-- Parses one `key:value` item of a descriptor; anything else is malformed. -/
def parseKV (item : List Char) : Option (String × String) :=
  match splitCh ':' item with
  | [k, v] => some (String.mk (trimSp k), String.mk (trimSp v))
  | _ => none

/-- Parses a list of descriptor items, failing if any item is malformed. -/
def parseItems : List (List Char) → Option (List (String × String))
  | [] => some []
  | i :: rest =>
    match parseKV i, parseItems rest with
    | some kv, some r => some (kv :: r)
    | _, _ => none

/-- Modelled from the spec: a descriptor is a comma-separated `key:value` list. -/
def parseDescriptor (desc : String) : Option (List (String × String)) :=
  parseItems ((splitCh ',' desc.data).filter (fun i => !(trimSp i).isEmpty))

/-- First value bound to a key in the parsed descriptor. -/
def lookupKey (kvs : List (String × String)) (k : String) : Option String :=
  (kvs.find? (fun p => p.1 == k)).map Prod.snd

/-- Modelled from the spec: unrecognized descriptor keys fail. -/
def keysRecognized (kvs : List (String × String)) : Bool :=
  kvs.all (fun p => p.1 == "papersize" || p.1 == "btype" || p.1 == "binding")

/-- Modelled from the spec: the supported (style, nupCount) combinations;
undefined combinations are rejected at resolution time. -/
def supportedCombo : BookletStyle → Nat → Bool
  | .booklet, n => n == 2 || n == 4 || n == 6 || n == 8
  | .bookletAdvanced, n => n == 4
  | .perfectBound, n => n == 2 || n == 4 || n == 6 || n == 8

/-- The supported N-up counts {2, 4, 6, 8}. -/
def validNup (n : Nat) : Bool := n == 2 || n == 4 || n == 6 || n == 8

/-- Style resolved from the descriptor; missing `btype` defaults to booklet. -/
def styleFromKvs (kvs : List (String × String)) : Option BookletStyle :=
  match lookupKey kvs "btype" with
  | none => some .booklet
  | some t => styleOfToken t

/-- Binding resolved from the descriptor; missing `binding` defaults to long. -/
def bindingFromKvs (kvs : List (String × String)) : Option BookletBinding :=
  match lookupKey kvs "binding" with
  | none => some .long
  | some t => bindingOfToken t

/-- Orientation resolved from the descriptor; missing `papersize` means portrait. -/
def orientationFromKvs (kvs : List (String × String)) : PaperOrientation :=
  match lookupKey kvs "papersize" with
  | none => .portrait
  | some v => orientationOfPapersize v

/-- Modelled from the spec: configuration resolution
`resolve(nupCount, descriptor) → ImpositionConfig` or `InvalidConfig`;
named after the entry point `PDFBookletConfig` used by the conformance test. -/
def PDFBookletConfig (n : Nat) (desc : String) : Except ConfigError ImpositionConfig :=
  if validNup n then
    match parseDescriptor desc with
    | none => .error .invalidConfig
    | some kvs =>
      if keysRecognized kvs then
        match styleFromKvs kvs, bindingFromKvs kvs with
        | some st, some bd =>
          if supportedCombo st n then
            .ok ⟨n, st, bd, orientationFromKvs kvs⟩
          else .error .invalidConfig
        | _, _ => .error .invalidConfig
      else .error .invalidConfig
  else .error .invalidConfig

/-- The resolution success condition, stated as the conjunction of the four
conditions of the specification: supported nup count, well-formed descriptor
with recognized keys, recognized btype/binding tokens, supported combination. -/
def resolvable (n : Nat) (desc : String) : Bool :=
  validNup n &&
    match parseDescriptor desc with
    | none => false
    | some kvs =>
      keysRecognized kvs &&
        match styleFromKvs kvs, bindingFromKvs kvs with
        | some st, some _ => supportedCombo st n
        | _, _ => false

/-! ## Imposition engine (PagePadder, SignaturePlanner, OrderComposer, Sequencer)

Modelled from the spec, with the conformance vectors of the test suite as the
authoritative oracle.  Slot contents are described by patterns: a pattern
entry `(high, k)` at sheet `j` denotes the logical position `S - (w*j + k)`
(drawn from the end of the signature) when `high`, else position `w*j + k`. -/

/-- `sheetCapacity(nupCount) = nupCount * 2` (front + back of one sheet). -/
def sheetCapacity (n : Nat) : Nat := 2 * n

/-- The smallest multiple of `cap` that is at least `n` (`pad` of the spec). -/
def padCount (n cap : Nat) : Nat := cap * ((n + cap - 1) / cap)

/-- Interprets a pattern entry as a logical position (1-based) for sheet `j`
of a signature of `S` positions, with per-sheet shift unit `w`. -/
def patPos (S w j : Nat) (p : Bool × Nat) : Nat :=
  if p.1 then S - (w * j + p.2) else w * j + p.2

/-- Modelled from the spec: the per-style, per-N-up base slot patterns
(front face, back face) for sheet 0 in portrait orientation with long-edge
binding, pinned by the reference vectors of the conformance suite.
For booklet styles the entries combine the nested 2-up pairs
`(S-2i, 2i+1)` (front) and `(2i+2, S-2i-1)` (back); for perfect binding the
front face holds the odd positions of the sheet's window and the back face
the even positions with each 2-wide row mirrored (no mirror at 1 column). -/
def basePatterns : BookletStyle → Nat → List (Bool × Nat) × List (Bool × Nat)
  | .booklet, 2 =>
    ([(true, 0), (false, 1)],
     [(false, 2), (true, 1)])
  | .booklet, 4 =>
    ([(true, 0), (false, 1), (false, 3), (true, 2)],
     [(false, 2), (true, 1), (true, 3), (false, 4)])
  | .booklet, 6 =>
    ([(true, 0), (false, 1), (true, 2), (false, 3), (true, 4), (false, 5)],
     [(false, 2), (true, 1), (false, 4), (true, 3), (false, 6), (true, 5)])
  | .booklet, 8 =>
    ([(false, 1), (true, 2), (true, 0), (false, 3), (false, 5), (true, 6), (true, 4), (false, 7)],
     [(true, 3), (false, 2), (false, 4), (true, 1), (true, 7), (false, 6), (false, 8), (true, 5)])
  | .bookletAdvanced, _ =>
    ([(false, 8), (false, 1), (false, 5), (false, 4)],
     [(false, 2), (false, 7), (false, 3), (false, 6)])
  | .perfectBound, 2 =>
    ([(false, 1), (false, 3)], [(false, 2), (false, 4)])
  | .perfectBound, n =>
    ((List.range n).map (fun t => (false, 2 * t + 1)),
     swapAdj ((List.range n).map (fun t => (false, 2 * t + 2))))
  | .booklet, _ => ([], [])

/-- Whether the effective fold axis is the top fold: portrait with short-edge
binding, or landscape with long-edge binding (the duplex flip axis moves with
the sheet orientation). -/
def isTopfold (c : ImpositionConfig) : Bool :=
  match c.orientation, c.bindingEdge with
  | .portrait, .short => true
  | .landscape, .long => true
  | _, _ => false

/-- The topfold traversal only applies to the saddle-stitch booklet style. -/
def topfoldActive (c : ImpositionConfig) : Bool :=
  c.style == .booklet && isTopfold c

/-- The slot patterns of one sheet after the secondary transforms: topfold
exchanges the traversal axis (column-major instead of row-major over the
2-column grid), and short-edge binding rotates each back face by 180
degrees (reverses its flattened slot order). -/
def facePatterns (c : ImpositionConfig) : List (Bool × Nat) × List (Bool × Nat) :=
  let fb := basePatterns c.style c.nupCount
  let f := if topfoldActive c then colMajor2 fb.1 else fb.1
  let b := if topfoldActive c then colMajor2 fb.2 else fb.2
  (f, if c.bindingEdge == .short then b.reverse else b)

/-- Per-sheet shift unit: nested booklet sheets advance by `nupCount`
positions from each end of the signature; the stacked styles advance by a
whole sheet window of `2 * nupCount` positions. -/
def shiftUnit (c : ImpositionConfig) : Nat :=
  match c.style with
  | .booklet => c.nupCount
  | _ => 2 * c.nupCount

/-- `impose`: the 1-based logical positions printed on sheet `j` (front face
then back face) of a signature of `S` positions. -/
def sheetSlots (c : ImpositionConfig) (S j : Nat) : List Nat :=
  (facePatterns c).1.map (patPos S (shiftUnit c) j) ++
    (facePatterns c).2.map (patPos S (shiftUnit c) j)

/-- `Sequencer`: all slot positions, sheets concatenated in order. -/
def slotPositions (c : ImpositionConfig) (S : Nat) : List Nat :=
  ((List.range (S / sheetCapacity c.nupCount)).map (sheetSlots c S)).flatten

/-- `PagePadder`: the requested pages (ascending) followed by blank
placeholders (`none`) up to the padded count `S`. -/
def paddedPages (pages : List Nat) (S : Nat) : List (Option Nat) :=
  pages.map some ++ List.replicate (S - pages.length) none

/-- Modelled from the spec: the full ordering engine
`sortSelectedPagesForBooklet` (absent from the given sources, which only
contain its conformance test).  Takes the requested pages in ascending order,
pads them with blank placeholders (`none`) to a full multiple of the sheet
capacity, and maps every slot position to its logical page. -/
def sortSelectedPagesForBooklet (pages : List Nat) (c : ImpositionConfig) :
    List (Option Nat) :=
  (slotPositions c (padCount pages.length (sheetCapacity c.nupCount))).map
    (fun p =>
      (paddedPages pages (padCount pages.length (sheetCapacity c.nupCount))).getD
        (p - 1) none)

/-- The multiset reference pattern of one nested booklet sheet: its low
positions ascending, then its high positions ascending. -/
def sortedPatternBooklet (m : Nat) : List (Bool × Nat) :=
  (List.range m).map (fun k => (false, k + 1)) ++
    (List.range m).map (fun k => (true, m - 1 - k))

/-- The multiset reference pattern of one stacked (window-local) sheet. -/
def sortedPatternStacked (w : Nat) : List (Bool × Nat) :=
  (List.range w).map (fun k => (false, k + 1))

/-- The reference pattern carrying the same entries as a sheet's face
patterns, in sorted order. -/
def sortedPattern (c : ImpositionConfig) : List (Bool × Nat) :=
  match c.style with
  | .booklet => sortedPatternBooklet c.nupCount
  | _ => sortedPatternStacked (2 * c.nupCount)

/-- The page set {1, …, n} used by the conformance test. -/
def selectedPages (n : Nat) : List Nat := (List.range n).map (· + 1)

/-- The descriptor string built by `TestBookletPageOrder`:
`fmt.Sprintf("papersize:%s, btype:%s, binding: %s", …)`. -/
def testDescriptor (papersize btype binding : String) : String :=
  "papersize:" ++ papersize ++ ", btype:" ++ btype ++ ", binding: " ++ binding

/-! ## The conformance table (embedded from the test suite) -/

structure pageOrderResults where
  caseId : String
  nup : Nat
  pageCount : Nat
  expectedPageOrder : List Nat
  papersize : String
  bookletType : String
  binding : String
deriving DecidableEq

/-- The parameterized conformance table `bookletTestCases` of the source. -/
def bookletTestCases : List pageOrderResults :=
  [⟨"booklet portrait long edge", 4, 16,
    [16, 1, 3, 14, 2, 15, 13, 4, 12, 5, 7, 10, 6, 11, 9, 8],
    "A5", "booklet", "long"⟩,
   ⟨"booklet landscape short edge", 4, 8,
    [8, 1, 3, 6, 4, 5, 7, 2],
    "A5L", "booklet", "short"⟩,
   ⟨"booklet topfold portrait", 4, 16,
    [16, 3, 1, 14, 4, 15, 13, 2, 12, 7, 5, 10, 8, 11, 9, 6],
    "A5", "booklet", "short"⟩,
   ⟨"booklet topfold landscape", 4, 8,
    [8, 3, 1, 6, 2, 5, 7, 4],
    "A5L", "booklet", "long"⟩,
   ⟨"advanced portrait long edge", 4, 8,
    [8, 1, 5, 4, 2, 7, 3, 6],
    "A5", "bookletadvanced", "long"⟩,
   ⟨"advanced landscape short edge", 4, 8,
    [8, 1, 5, 4, 6, 3, 7, 2],
    "A5L", "bookletadvanced", "short"⟩,
   ⟨"6up", 6, 12,
    [12, 1, 10, 3, 8, 5, 2, 11, 4, 9, 6, 7],
    "A6", "booklet", "long"⟩,
   ⟨"6up multisheet", 6, 24,
    [24, 1, 22, 3, 20, 5, 2, 23, 4, 21, 6, 19, 18, 7, 16, 9, 14, 11, 8, 17, 10, 15, 12, 13],
    "A6", "booklet", "long"⟩,
   ⟨"8up", 8, 32,
    [1, 30, 32, 3, 5, 26, 28, 7, 29, 2, 4, 31, 25, 6, 8, 27,
     9, 22, 24, 11, 13, 18, 20, 15, 21, 10, 12, 23, 17, 14, 16, 19],
    "A6", "booklet", "long"⟩,
   ⟨"perfect bound 2up", 2, 8,
    [1, 3, 2, 4, 5, 7, 6, 8],
    "A6", "perfectbound", "long"⟩,
   ⟨"perfect bound 4up", 4, 16,
    [1, 3, 5, 7, 4, 2, 8, 6, 9, 11, 13, 15, 12, 10, 16, 14],
    "A6", "perfectbound", "long"⟩,
   ⟨"perfect bound 4up landscape short-edge", 4, 16,
    [1, 3, 5, 7, 6, 8, 2, 4, 9, 11, 13, 15, 14, 16, 10, 12],
    "A6", "perfectbound", "short"⟩,
   ⟨"perfect bound 8up", 8, 16,
    [1, 3, 5, 7, 9, 11, 13, 15, 4, 2, 8, 6, 12, 10, 16, 14],
    "A6", "perfectbound", "long"⟩]

/-- The full pipeline run by the conformance test on one table entry:
resolve the configuration from the nup count and the formatted descriptor,
then order the page set {1, …, pageCount}. -/
def runCase (tc : pageOrderResults) : Option (List (Option Nat)) :=
  match PDFBookletConfig tc.nup (testDescriptor tc.papersize tc.bookletType tc.binding) with
  | .error _ => none
  | .ok c => some (sortSelectedPagesForBooklet (selectedPages tc.pageCount) c)

/-! # Theorems -/

/-- The modelled engine reproduces every row of the conformance table
(`TestBookletPageOrder` of the source succeeds on the model). -/
theorem model_matches_conformance_table :
    (bookletTestCases.all
      (fun tc => runCase tc == some (tc.expectedPageOrder.map some))) = true := by
  decide

theorem padCount_zero (cap : Nat) : padCount 0 cap = 0 := by
  cases cap with
  | zero => rfl
  | succ k =>
    unfold padCount
    rw [Nat.div_eq_of_lt (by omega)]
    exact Nat.mul_zero _

/-- C8: for every configuration, an empty requested page set is a no-op:
the engine returns the empty output sequence (and no error). -/
theorem empty_page_set_is_noop :
    ∀ c : ImpositionConfig, sortSelectedPagesForBooklet [] c = [] := by
  intro c
  simp [sortSelectedPagesForBooklet, padCount_zero, slotPositions]

/-- C1: the six golden scenarios of the specification, run through the full
pipeline (configuration resolution from the scenario's nup count and
descriptor, then the ordering engine on pages 1..N), produce exactly the
listed slot orders. -/
theorem golden_scenarios_exact :
    (PDFBookletConfig 4 "papersize:A5, btype:booklet, binding: long").map
        (sortSelectedPagesForBooklet (selectedPages 16)) =
      Except.ok ([16, 1, 3, 14, 2, 15, 13, 4, 12, 5, 7, 10, 6, 11, 9, 8].map some) ∧
    (PDFBookletConfig 4 "papersize:A5L, btype:booklet, binding: short").map
        (sortSelectedPagesForBooklet (selectedPages 8)) =
      Except.ok ([8, 1, 3, 6, 4, 5, 7, 2].map some) ∧
    (PDFBookletConfig 4 "papersize:A5, btype:booklet, binding: short").map
        (sortSelectedPagesForBooklet (selectedPages 16)) =
      Except.ok ([16, 3, 1, 14, 4, 15, 13, 2, 12, 7, 5, 10, 8, 11, 9, 6].map some) ∧
    (PDFBookletConfig 4 "papersize:A5, btype:bookletadvanced, binding: long").map
        (sortSelectedPagesForBooklet (selectedPages 8)) =
      Except.ok ([8, 1, 5, 4, 2, 7, 3, 6].map some) ∧
    (PDFBookletConfig 2 "papersize:A6, btype:perfectbound, binding: long").map
        (sortSelectedPagesForBooklet (selectedPages 8)) =
      Except.ok ([1, 3, 2, 4, 5, 7, 6, 8].map some) ∧
    (PDFBookletConfig 6 "papersize:A6, btype:booklet, binding: long").map
        (sortSelectedPagesForBooklet (selectedPages 24)) =
      Except.ok ([24, 1, 22, 3, 20, 5, 2, 23, 4, 21, 6, 19,
                  18, 7, 16, 9, 14, 11, 8, 17, 10, 15, 12, 13].map some) := by
  refine ⟨?_, ?_, ?_, ?_, ?_, ?_⟩ <;> decide

/-- C9: both `Encode` and `Decode` of the LZWDecode filter construct the LZW
writer/reader with the early-change flag enabled whenever the "EarlyChange"
key is absent from the filter parameters (default 1), and with the flag equal
to (value == 1) when the key is present. -/
theorem lzw_early_change_flag :
    ∀ parms : List (String × Int),
      (parms.lookup "EarlyChange" = none →
        lzwEncodeEarlyChange parms = true ∧ lzwDecodeEarlyChange parms = true) ∧
      ∀ v : Int, parms.lookup "EarlyChange" = some v →
        lzwEncodeEarlyChange parms = (v == 1) ∧
          lzwDecodeEarlyChange parms = (v == 1) := by
  intro parms
  constructor
  · intro h
    constructor <;> simp [lzwEncodeEarlyChange, lzwDecodeEarlyChange, h]
  · intro v h
    constructor <;> simp [lzwEncodeEarlyChange, lzwDecodeEarlyChange, h]

theorem lzw_early_change_flag_witness :
    lzwEncodeEarlyChange [] = true ∧ lzwDecodeEarlyChange [] = true ∧
    lzwEncodeEarlyChange [("EarlyChange", 0)] = false ∧
    lzwDecodeEarlyChange [("EarlyChange", 0)] = false :=
  ⟨((lzw_early_change_flag []).1 rfl).1,
   ((lzw_early_change_flag []).1 rfl).2,
   ((lzw_early_change_flag [("EarlyChange", 0)]).2 0 rfl).1,
   ((lzw_early_change_flag [("EarlyChange", 0)]).2 0 rfl).2⟩

/-- C7: configuration resolution is total — it returns a valid configuration
exactly when the nup count is supported, the descriptor is well-formed with
recognized keys, the btype/binding tokens are recognized, and the
(style, nupCount) combination is supported (the conjunction `resolvable`);
in every other case it fails with the `InvalidConfig` error, never silently
substituting defaults for malformed tokens. -/
theorem config_resolution_total :
    ∀ (n : Nat) (d : String),
      ((∃ c, PDFBookletConfig n d = Except.ok c) ↔ resolvable n d = true) ∧
      (resolvable n d = false →
        PDFBookletConfig n d = Except.error ConfigError.invalidConfig) := by
  intro n d
  unfold PDFBookletConfig resolvable
  cases hv : validNup n <;> simp only [hv, Bool.false_and, Bool.true_and]
  · simp
  · cases hp : parseDescriptor d
    · simp
    · rename_i kvs
      cases hk : keysRecognized kvs <;> simp only [hk]
      · simp
      · cases hs : styleFromKvs kvs <;> cases hb : bindingFromKvs kvs <;>
          simp only [hs, hb]
        · simp
        · simp
        · simp
        · rename_i st bd
          cases hc : supportedCombo st n <;> simp [hc]

theorem config_resolution_total_witness :
    (∃ c, PDFBookletConfig 4 "btype:booklet" = Except.ok c) ∧
    PDFBookletConfig 3 "btype:booklet" = Except.error ConfigError.invalidConfig ∧
    PDFBookletConfig 4 "btype:pamphlet" = Except.error ConfigError.invalidConfig ∧
    PDFBookletConfig 2 "btype:bookletadvanced" = Except.error ConfigError.invalidConfig :=
  ⟨(config_resolution_total 4 "btype:booklet").1.mpr (by decide),
   (config_resolution_total 3 "btype:booklet").2 (by decide),
   (config_resolution_total 4 "btype:pamphlet").2 (by decide),
   (config_resolution_total 2 "btype:bookletadvanced").2 (by decide)⟩

/-- A flat list of pairs each summing to `t` has twice-sum `t * length`. -/
theorem sumPairs_sum : ∀ (t : Nat) (l : List Nat), sumPairs t l = true →
    2 * l.sum = t * l.length
  | _, [], _ => by simp
  | t, [a], h => by simp [sumPairs] at h
  | t, a :: b :: rest, h => by
    simp only [sumPairs, Bool.and_eq_true, beq_iff_eq] at h
    have ih := sumPairs_sum t rest h.2
    have hm : t * (rest.length + 1 + 1) = t * rest.length + 2 * t := by ring
    simp only [List.sum_cons, List.length_cons]
    omega

/-- Soundness of the greedy pairing check: success yields an actual partition
into pairs summing to `t` (as a permutation grouped into consecutive pairs). -/
theorem pairableF_sound : ∀ (fuel t : Nat) (l : List Nat), l.length ≤ fuel →
    pairableF t fuel l = true → ∃ l', l'.Perm l ∧ sumPairs t l' = true
  | _, _, [], _, _ => ⟨[], List.Perm.refl [], rfl⟩
  | 0, _, a :: rest, hlen, _ => by simp at hlen
  | fuel + 1, t, a :: rest, hlen, h => by
    simp only [pairableF] at h
    cases hf : rest.find? (fun b => a + b == t) with
    | none => rw [hf] at h; exact absurd h (by simp)
    | some b =>
      rw [hf] at h
      have hb : b ∈ rest := List.mem_of_find?_eq_some hf
      have hab : a + b = t := by
        have := List.find?_some hf
        simpa using this
      have hlen' : (rest.erase b).length ≤ fuel := by
        have := List.length_erase_of_mem hb
        simp only [List.length_cons] at hlen
        omega
      obtain ⟨l'', hperm, hsum⟩ := pairableF_sound fuel t (rest.erase b) hlen' h
      refine ⟨a :: b :: l'', ?_, ?_⟩
      · exact ((hperm.cons b).trans (List.perm_cons_erase hb).symm).cons a
      · simp [sumPairs, hab, hsum]

/-- C10: in every non-perfectbound conformance case, every face (consecutive
block of `nup` slots of the expected order) partitions into pairs summing to
`pageCount + 1`; every perfectbound case has a face admitting no such
pairing. -/
theorem saddle_faces_pair_to_sum :
    (∀ tc ∈ bookletTestCases, tc.bookletType ≠ "perfectbound" →
      ∀ fc ∈ faceChunks tc.nup tc.expectedPageOrder,
        ∃ l', l'.Perm fc ∧ sumPairs (tc.pageCount + 1) l' = true) ∧
    (∀ tc ∈ bookletTestCases, tc.bookletType = "perfectbound" →
      ∃ fc ∈ faceChunks tc.nup tc.expectedPageOrder,
        ¬∃ l', l'.Perm fc ∧ sumPairs (tc.pageCount + 1) l' = true) := by
  constructor
  · have hall : bookletTestCases.all
        (fun tc => (tc.bookletType == "perfectbound") ||
          (faceChunks tc.nup tc.expectedPageOrder).all
            (pairable (tc.pageCount + 1))) = true := by decide
    intro tc htc hne fc hfc
    have h1 := List.all_eq_true.mp hall tc htc
    have h2 : (faceChunks tc.nup tc.expectedPageOrder).all
        (pairable (tc.pageCount + 1)) = true := by
      cases hor : (tc.bookletType == "perfectbound") with
      | true => exact absurd (by simpa using hor) hne
      | false => simpa [hor] using h1
    have h3 : pairable (tc.pageCount + 1) fc = true :=
      List.all_eq_true.mp h2 fc hfc
    exact pairableF_sound fc.length (tc.pageCount + 1) fc (Nat.le_refl _) h3
  · intro tc htc heq
    have hface : ∃ fc ∈ faceChunks tc.nup tc.expectedPageOrder,
        2 * fc.sum ≠ (tc.pageCount + 1) * fc.length := by
      simp only [bookletTestCases, List.mem_cons, List.not_mem_nil, or_false] at htc
      rcases htc with rfl | rfl | rfl | rfl | rfl | rfl | rfl | rfl | rfl | rfl | rfl | rfl | rfl <;>
        first
          | (exact absurd heq (by decide))
          | decide
    obtain ⟨fc, hfc, hsum⟩ := hface
    refine ⟨fc, hfc, ?_⟩
    rintro ⟨l', hp, hs⟩
    have := sumPairs_sum _ l' hs
    rw [hp.sum_eq, hp.length_eq] at this
    exact hsum this

theorem saddle_faces_pair_to_sum_witness :
    (∃ l', l'.Perm [16, 1, 3, 14] ∧ sumPairs 17 l' = true) ∧
    (∃ fc ∈ faceChunks 2 [1, 3, 2, 4, 5, 7, 6, 8],
      ¬∃ l', l'.Perm fc ∧ sumPairs 9 l' = true) :=
  ⟨saddle_faces_pair_to_sum.1
      ⟨"booklet portrait long edge", 4, 16,
        [16, 1, 3, 14, 2, 15, 13, 4, 12, 5, 7, 10, 6, 11, 9, 8],
        "A5", "booklet", "long"⟩
      (by decide) (by decide) [16, 1, 3, 14] (by decide),
   saddle_faces_pair_to_sum.2
      ⟨"perfect bound 2up", 2, 8, [1, 3, 2, 4, 5, 7, 6, 8], "A6", "perfectbound", "long"⟩
      (by decide) rfl⟩

/-- Extracting a within-block slice from the flattening of equal-length blocks. -/
theorem flatten_extract {α : Type} (f : Nat → List α) (L : Nat)
    (hL : ∀ k, (f k).length = L) :
    ∀ (n s j d t : Nat), j < n → d + t ≤ L →
      ((((List.range' s n).map f).flatten.drop (L * j + d)).take t) =
        ((f (s + j)).drop d).take t := by
  intro n
  induction n with
  | zero => intro s j d t hj _; exact absurd hj (Nat.not_lt_zero j)
  | succ m ih =>
    intro s j d t hj hdt
    rw [List.range'_succ, List.map_cons, List.flatten_cons]
    cases j with
    | zero =>
      rw [Nat.mul_zero, Nat.zero_add]
      rw [List.drop_append_of_le_length (by rw [hL]; omega)]
      rw [List.take_append_of_le_length (by rw [List.length_drop, hL]; omega)]
      rfl
    | succ i =>
      have hidx : L * (i + 1) + d = (f s).length + (L * i + d) := by rw [hL]; ring
      rw [hidx, List.drop_append]
      have harg : s + 1 + i = s + (i + 1) := by omega
      rw [ih (s + 1) i d t (by omega) hdt, harg]

/-- C3 counterexample: in the 6up multisheet conformance vector of the source,
the first output sheet (12 slots, nup 6, sheetCapacity 12) carries page 24,
which lies outside the first consecutive 12-page window of the padded
sequence, so output sheets are not window-local at nup 6. -/
theorem high_nup_sheets_not_window_local :
    windowLocal 12 [24, 1, 22, 3, 20, 5, 2, 23, 4, 21, 6, 19,
                    18, 7, 16, 9, 14, 11, 8, 17, 10, 15, 12, 13] = false ∧
    sheetCapacity 6 = 12 ∧
    ((sortSelectedPagesForBooklet (selectedPages 24)
        ⟨6, .booklet, .long, .portrait⟩).take 12).contains (some 24) = true := by
  decide

/-- C3 amended: for booklet at nup 6 and 8 the whole padded document forms a
single nested signature; sheet `j` (0-indexed, outer to inner) interleaves an
ascending run drawn from the first half of the signature with a descending run
drawn from the second half — its slots are the closed forms below, whose
"low" entries lie in the first half and "high" entries in the second half. -/
theorem booklet_high_nup_nested :
    (∀ S j, 12 ∣ S → j < S / 12 →
      sheetSlots ⟨6, .booklet, .long, .portrait⟩ S j =
        [S - 6 * j, 6 * j + 1, S - (6 * j + 2), 6 * j + 3, S - (6 * j + 4), 6 * j + 5,
         6 * j + 2, S - (6 * j + 1), 6 * j + 4, S - (6 * j + 3), 6 * j + 6, S - (6 * j + 5)] ∧
      6 * j + 6 ≤ S / 2 ∧ S / 2 < S - (6 * j + 5)) ∧
    (∀ S j, 16 ∣ S → j < S / 16 →
      sheetSlots ⟨8, .booklet, .long, .portrait⟩ S j =
        [8 * j + 1, S - (8 * j + 2), S - 8 * j, 8 * j + 3,
         8 * j + 5, S - (8 * j + 6), S - (8 * j + 4), 8 * j + 7,
         S - (8 * j + 3), 8 * j + 2, 8 * j + 4, S - (8 * j + 1),
         S - (8 * j + 7), 8 * j + 6, 8 * j + 8, S - (8 * j + 5)] ∧
      8 * j + 8 ≤ S / 2 ∧ S / 2 < S - (8 * j + 7)) := by
  constructor <;> intro S j hdvd hj <;> exact ⟨rfl, by omega, by omega⟩

theorem booklet_high_nup_nested_witness :
    sheetSlots ⟨6, .booklet, .long, .portrait⟩ 24 1 =
      [18, 7, 16, 9, 14, 11, 8, 17, 10, 15, 12, 13] ∧
    sheetSlots ⟨8, .booklet, .long, .portrait⟩ 32 1 =
      [9, 22, 24, 11, 13, 18, 20, 15, 21, 10, 12, 23, 17, 14, 16, 19] :=
  ⟨(booklet_high_nup_nested.1 24 1 (by decide) (by decide)).1,
   (booklet_high_nup_nested.2 32 1 (by decide) (by decide)).1⟩

/-- C4 counterexample: for perfect binding, choosing Short instead of Long
does not merely mirror the intra-row order of back faces — the whole back
face is reversed; and the front face is the odd-stride subsequence of the
sheet's whole window, not of the window's first half. -/
theorem perfectbound_short_counterexample :
    sortSelectedPagesForBooklet (selectedPages 16) ⟨4, .perfectBound, .long, .portrait⟩ =
      ([1, 3, 5, 7, 4, 2, 8, 6, 9, 11, 13, 15, 12, 10, 16, 14].map some) ∧
    sortSelectedPagesForBooklet (selectedPages 16) ⟨4, .perfectBound, .short, .landscape⟩ =
      ([1, 3, 5, 7, 6, 8, 2, 4, 9, 11, 13, 15, 14, 16, 10, 12].map some) ∧
    ([1, 3, 5, 7] ++ swapAdj [4, 2, 8, 6] ++ [9, 11, 13, 15] ++ swapAdj [12, 10, 16, 14]) ≠
      [1, 3, 5, 7, 6, 8, 2, 4, 9, 11, 13, 15, 14, 16, 10, 12] ∧
    altEvens (selectedPages 8) = [1, 3, 5, 7] ∧
    altEvens ((selectedPages 8).take 4) = [1, 3] ∧
    ([1, 3, 5, 7] : List Nat) ≠ [1, 3] := by
  refine ⟨?_, ?_, ?_, ?_, ?_, ?_⟩ <;> decide

/-- C4 amended: for PerfectBound every sheet's front face is the ascending
odd-position subsequence of the sheet's whole window and the back face is the
even-position subsequence with each 2-wide row mirrored (no mirror at nup 2,
whose grid has one column); Short binding reverses each whole back face (a
180-degree rotation), leaving every front face unchanged. -/
theorem perfectbound_rule :
    (∀ S j, sheetSlots ⟨2, .perfectBound, .long, .portrait⟩ S j =
        [4 * j + 1, 4 * j + 3] ++ [4 * j + 2, 4 * j + 4]) ∧
    (∀ S j, sheetSlots ⟨4, .perfectBound, .long, .portrait⟩ S j =
        [8 * j + 1, 8 * j + 3, 8 * j + 5, 8 * j + 7] ++
          swapAdj [8 * j + 2, 8 * j + 4, 8 * j + 6, 8 * j + 8]) ∧
    (∀ S j, sheetSlots ⟨8, .perfectBound, .long, .portrait⟩ S j =
        [16 * j + 1, 16 * j + 3, 16 * j + 5, 16 * j + 7,
         16 * j + 9, 16 * j + 11, 16 * j + 13, 16 * j + 15] ++
          swapAdj [16 * j + 2, 16 * j + 4, 16 * j + 6, 16 * j + 8,
                   16 * j + 10, 16 * j + 12, 16 * j + 14, 16 * j + 16]) ∧
    (∀ (S j : Nat) (o o' : PaperOrientation),
      sheetSlots ⟨4, .perfectBound, .short, o⟩ S j =
        (sheetSlots ⟨4, .perfectBound, .long, o'⟩ S j).take 4 ++
          ((sheetSlots ⟨4, .perfectBound, .long, o'⟩ S j).drop 4).reverse) :=
  ⟨fun _ _ => rfl, fun _ _ => rfl, fun _ _ => rfl, fun _ _ _ _ => rfl⟩

/-- C2 counterexample: the topfold output is not obtained from the sidefold
output by swapping the intra-row (left/right) order within rows — neither on
every face, nor on the front faces only, nor on the back faces only; the
actual relation is a column-major (transposed) traversal. -/
theorem topfold_not_intra_row_swap :
    sortSelectedPagesForBooklet (selectedPages 16) ⟨4, .booklet, .long, .portrait⟩ =
      ([16, 1, 3, 14, 2, 15, 13, 4, 12, 5, 7, 10, 6, 11, 9, 8].map some) ∧
    sortSelectedPagesForBooklet (selectedPages 16) ⟨4, .booklet, .short, .portrait⟩ =
      ([16, 3, 1, 14, 4, 15, 13, 2, 12, 7, 5, 10, 8, 11, 9, 6].map some) ∧
    ((faceChunks 4 [16, 1, 3, 14, 2, 15, 13, 4, 12, 5, 7, 10, 6, 11, 9, 8]).map
        swapAdj).flatten ≠
      [16, 3, 1, 14, 4, 15, 13, 2, 12, 7, 5, 10, 8, 11, 9, 6] ∧
    ([16, 3, 1, 14, 4, 15, 13, 2, 12, 7, 5, 10, 8, 11, 9, 6] : List Nat) ≠
      [1, 16, 14, 3] ++ [2, 15, 13, 4] ++ [5, 12, 10, 7] ++ [6, 11, 9, 8] ∧
    ([16, 3, 1, 14, 4, 15, 13, 2, 12, 7, 5, 10, 8, 11, 9, 6] : List Nat) ≠
      [16, 1, 3, 14] ++ [15, 2, 4, 13] ++ [12, 5, 7, 10] ++ [11, 6, 8, 9] := by
  refine ⟨?_, ?_, ?_, ?_, ?_⟩ <;> decide

/-- C2 amended: for the simple sidefold booklet at nup 4 (portrait, long
edge), virtual sheet `i` (0-indexed, outer to inner, S/4 sheets) places
front-row positions {S−2i, 2i+1} and back-row positions {2i+2, S−2i−1} as the
2-slot rows below (the odd rows appear in reversed reading order, the lower
half of a folded sheet being rotated); the topfold variant traverses each
face of the same sheet column-major (transpose) with the back face reversed;
and the two 16-page reference vectors are reproduced exactly. -/
theorem sidefold_rows_and_topfold_transpose :
    (∀ S i, 8 ∣ S → i < S / 4 →
      (((slotPositions ⟨4, .booklet, .long, .portrait⟩ S).drop
          (8 * (i / 2) + 2 * (i % 2))).take 2 =
        (if i % 2 = 0 then [S - 2 * i, 2 * i + 1] else [2 * i + 1, S - 2 * i]) ∧
       ((slotPositions ⟨4, .booklet, .long, .portrait⟩ S).drop
          (8 * (i / 2) + (4 + 2 * (i % 2)))).take 2 =
        (if i % 2 = 0 then [2 * i + 2, S - (2 * i + 1)]
         else [S - (2 * i + 1), 2 * i + 2]))) ∧
    (∀ S j, sheetSlots ⟨4, .booklet, .short, .portrait⟩ S j =
        colMajor2 ((sheetSlots ⟨4, .booklet, .long, .portrait⟩ S j).take 4) ++
          (colMajor2 ((sheetSlots ⟨4, .booklet, .long, .portrait⟩ S j).drop 4)).reverse) ∧
    sortSelectedPagesForBooklet (selectedPages 16) ⟨4, .booklet, .long, .portrait⟩ =
      ([16, 1, 3, 14, 2, 15, 13, 4, 12, 5, 7, 10, 6, 11, 9, 8].map some) ∧
    sortSelectedPagesForBooklet (selectedPages 16) ⟨4, .booklet, .short, .portrait⟩ =
      ([16, 3, 1, 14, 4, 15, 13, 2, 12, 7, 5, 10, 8, 11, 9, 6].map some) := by
  refine ⟨?_, fun S j => rfl, by decide, by decide⟩
  intro S i hdvd hi
  have hlen : ∀ k, (sheetSlots ⟨4, .booklet, .long, .portrait⟩ S k).length = 8 :=
    fun _ => rfl
  have hrw : slotPositions ⟨4, .booklet, .long, .portrait⟩ S =
      ((List.range' 0 (S / 8)).map (sheetSlots ⟨4, .booklet, .long, .portrait⟩ S)).flatten := by
    rw [slotPositions, List.range_eq_range']
    rfl
  constructor
  · rw [hrw, flatten_extract _ 8 hlen (S / 8) 0 (i / 2) (2 * (i % 2)) 2 (by omega) (by omega)]
    rcases Nat.mod_two_eq_zero_or_one i with hp | hp <;>
      simp only [hp, Nat.zero_add, if_pos rfl] <;>
      simp [sheetSlots, facePatterns, basePatterns, topfoldActive, isTopfold, patPos,
        shiftUnit] <;>
      omega
  · rw [hrw, flatten_extract _ 8 hlen (S / 8) 0 (i / 2) (4 + 2 * (i % 2)) 2 (by omega) (by omega)]
    rcases Nat.mod_two_eq_zero_or_one i with hp | hp <;>
      simp only [hp, Nat.zero_add, if_pos rfl] <;>
      simp [sheetSlots, facePatterns, basePatterns, topfoldActive, isTopfold, patPos,
        shiftUnit] <;>
      omega

theorem sidefold_rows_and_topfold_transpose_witness :
    ((slotPositions ⟨4, .booklet, .long, .portrait⟩ 16).drop 2).take 2 = [3, 14] ∧
    ((slotPositions ⟨4, .booklet, .long, .portrait⟩ 16).drop 4).take 2 = [2, 15] :=
  ⟨(sidefold_rows_and_topfold_transpose.1 16 1 (by decide) (by decide)).1,
   (sidefold_rows_and_topfold_transpose.1 16 0 (by decide) (by decide)).2⟩

theorem range'_append_one (s a b : Nat) :
    List.range' s a ++ List.range' (s + a) b = List.range' s (a + b) := by
  have h := List.range'_append s a b 1
  rw [Nat.one_mul] at h
  rw [h, Nat.add_comm]

/-- The face patterns of a supported configuration are a permutation of the
sorted reference pattern (decided case by case over the finite space of
styles, N-up counts, bindings and orientations). -/
theorem facePatterns_perm_sorted (c : ImpositionConfig)
    (h : supportedCombo c.style c.nupCount = true) :
    ((facePatterns c).1 ++ (facePatterns c).2).Perm (sortedPattern c) := by
  obtain ⟨n, st, bd, og⟩ := c
  cases st <;> cases bd <;> cases og <;>
    simp only [supportedCombo, Bool.or_eq_true, beq_iff_eq] at h <;>
    rcases h with ((rfl | rfl) | rfl) | rfl <;> decide

theorem mapSortedBooklet (m S j : Nat) (hS : m * j + m ≤ S) :
    (sortedPatternBooklet m).map (patPos S m j) =
      List.range' (m * j + 1) m ++ List.range' (S - (m * j + m) + 1) m := by
  unfold sortedPatternBooklet
  rw [List.map_append, List.map_map, List.map_map]
  congr 1
  · rw [List.range'_eq_map_range]
    apply List.map_congr_left
    intro k _
    simp [patPos]
    omega
  · rw [List.range'_eq_map_range]
    apply List.map_congr_left
    intro k hk
    rw [List.mem_range] at hk
    simp [patPos]
    omega

theorem mapSortedStacked (w S j : Nat) :
    (sortedPatternStacked w).map (patPos S w j) = List.range' (w * j + 1) w := by
  unfold sortedPatternStacked
  rw [List.map_map, List.range'_eq_map_range]
  apply List.map_congr_left
  intro k _
  simp [patPos]
  omega

theorem flatten_perm_of_forall {α β : Type} (r : List β) (f g : β → List α)
    (h : ∀ b ∈ r, (f b).Perm (g b)) :
    ((r.map f).flatten).Perm ((r.map g).flatten) := by
  induction r with
  | nil => exact List.Perm.refl _
  | cons b t ih =>
    simp only [List.map_cons, List.flatten_cons]
    exact (h b (by simp)).append (ih (fun x hx => h x (by simp [hx])))

theorem flatten_append_perm {α β : Type} (r : List β) (A B : β → List α) :
    ((r.map (fun b => A b ++ B b)).flatten).Perm
      ((r.map A).flatten ++ (r.map B).flatten) := by
  induction r with
  | nil => simp
  | cons b t ih =>
    simp only [List.map_cons, List.flatten_cons]
    refine (ih.append_left (A b ++ B b)).trans ?_
    rw [List.append_assoc]
    refine List.Perm.append_left (A b) ?_ |>.trans (by rw [List.append_assoc])
    rw [← List.append_assoc, ← List.append_assoc]
    exact List.Perm.append_right _ List.perm_append_comm

theorem flatten_lows (m : Nat) :
    ∀ n, (((List.range n).map (fun j => List.range' (m * j + 1) m)).flatten) =
      List.range' 1 (m * n) := by
  intro n
  induction n with
  | zero => simp
  | succ p ih =>
    rw [List.range_succ, List.map_append, List.flatten_append, ih]
    simp only [List.map_cons, List.map_nil, List.flatten_cons, List.flatten_nil,
      List.append_nil]
    rw [show m * p + 1 = 1 + m * p from by omega]
    rw [range'_append_one 1 (m * p) m, Nat.mul_succ]

theorem flatten_highs (m : Nat) :
    ∀ n S, m * n ≤ S →
      (((List.range n).map (fun j => List.range' (S - (m * j + m) + 1) m)).flatten).Perm
        (List.range' (S - m * n + 1) (m * n)) := by
  intro n
  induction n with
  | zero => intro S _; simp
  | succ p ih =>
    intro S hS
    rw [Nat.mul_succ] at hS
    rw [List.range_succ, List.map_append, List.flatten_append]
    simp only [List.map_cons, List.map_nil, List.flatten_cons, List.flatten_nil,
      List.append_nil]
    refine ((ih S (by omega)).append_right _).trans ?_
    refine (List.perm_append_comm).trans ?_
    have h2 := range'_append_one (S - (m * p + m) + 1) m (m * p)
    rw [show S - (m * p + m) + 1 + m = S - m * p + 1 from by omega] at h2
    rw [h2, Nat.mul_succ, show m + m * p = m * p + m from by omega]

theorem nup_pos_of_supported (st : BookletStyle) (n : Nat)
    (h : supportedCombo st n = true) : 0 < n := by
  cases st <;> simp [supportedCombo] at h <;> omega

theorem sheetSlots_eq_map (c : ImpositionConfig) (S j : Nat) :
    sheetSlots c S j =
      ((facePatterns c).1 ++ (facePatterns c).2).map (patPos S (shiftUnit c) j) := by
  rw [sheetSlots, List.map_append]

/-- The slot positions of a supported configuration over `q` full sheets are
a permutation of the positions 1 … sheetCapacity*q: no position is dropped,
duplicated or invented. -/
theorem slotPositions_perm (c : ImpositionConfig) (q : Nat)
    (hc : supportedCombo c.style c.nupCount = true) :
    (slotPositions c (sheetCapacity c.nupCount * q)).Perm
      (List.range' 1 (sheetCapacity c.nupCount * q)) := by
  have hn : 0 < c.nupCount := nup_pos_of_supported _ _ hc
  have hcap : 0 < sheetCapacity c.nupCount := by unfold sheetCapacity; omega
  have hq : sheetCapacity c.nupCount * q / sheetCapacity c.nupCount = q :=
    Nat.mul_div_cancel_left q hcap
  have hmq : c.nupCount * q ≤ sheetCapacity c.nupCount * q :=
    Nat.mul_le_mul_right q (by unfold sheetCapacity; omega)
  unfold slotPositions
  rw [hq]
  have hblock : ∀ j, (sheetSlots c (sheetCapacity c.nupCount * q) j).Perm
      ((sortedPattern c).map
        (patPos (sheetCapacity c.nupCount * q) (shiftUnit c) j)) := by
    intro j
    rw [sheetSlots_eq_map]
    exact (facePatterns_perm_sorted c hc).map _
  refine (flatten_perm_of_forall _ _ _ (fun j _ => hblock j)).trans ?_
  cases hst : c.style
  case booklet =>
    simp only [sortedPattern, shiftUnit, hst]
    have hsort : ∀ j ∈ List.range q,
        (sortedPatternBooklet c.nupCount).map
            (patPos (sheetCapacity c.nupCount * q) c.nupCount j) =
          List.range' (c.nupCount * j + 1) c.nupCount ++
            List.range'
              (sheetCapacity c.nupCount * q - (c.nupCount * j + c.nupCount) + 1)
              c.nupCount := by
      intro j hj
      rw [List.mem_range] at hj
      apply mapSortedBooklet
      have h1 : c.nupCount * (j + 1) ≤ c.nupCount * q := Nat.mul_le_mul_left _ hj
      have h1' : c.nupCount * j + c.nupCount = c.nupCount * (j + 1) := by ring
      omega
    rw [List.map_congr_left hsort]
    refine (flatten_append_perm _ _ _).trans ?_
    rw [flatten_lows]
    refine (List.Perm.append_left _ (flatten_highs c.nupCount q _ hmq)).trans ?_
    have hS : sheetCapacity c.nupCount * q - c.nupCount * q = c.nupCount * q := by
      have h2 : sheetCapacity c.nupCount * q = c.nupCount * q + c.nupCount * q := by
        unfold sheetCapacity; ring
      omega
    rw [hS, show c.nupCount * q + 1 = 1 + c.nupCount * q from by omega,
      range'_append_one 1 (c.nupCount * q) (c.nupCount * q),
      show c.nupCount * q + c.nupCount * q = sheetCapacity c.nupCount * q from by
        unfold sheetCapacity; ring]
  case bookletAdvanced =>
    simp only [sortedPattern, shiftUnit, hst]
    rw [List.map_congr_left (fun j _ => mapSortedStacked (2 * c.nupCount)
      (sheetCapacity c.nupCount * q) j)]
    rw [flatten_lows]
    exact List.Perm.refl _
  case perfectBound =>
    simp only [sortedPattern, shiftUnit, hst]
    rw [List.map_congr_left (fun j _ => mapSortedStacked (2 * c.nupCount)
      (sheetCapacity c.nupCount * q) j)]
    rw [flatten_lows]
    exact List.Perm.refl _

theorem padCount_ge (n cap : Nat) (hc : 0 < cap) : n ≤ padCount n cap := by
  unfold padCount
  have h := Nat.div_add_mod (n + cap - 1) cap
  have h2 := Nat.mod_lt (n + cap - 1) hc
  omega

theorem padCount_min (n cap t : Nat) (hc : 0 < cap) (hd : cap ∣ t) (hn : n ≤ t) :
    padCount n cap ≤ t := by
  obtain ⟨u, rfl⟩ := hd
  unfold padCount
  have hlt : (n + cap - 1) / cap < u + 1 := by
    rw [Nat.div_lt_iff_lt_mul hc]
    have h2 : (u + 1) * cap = cap * u + cap := by ring
    omega
  exact Nat.mul_le_mul_left cap (by omega)

theorem map_getD_range {α : Type} : ∀ (l : List α) (d : α),
    (List.range l.length).map (fun i => l.getD i d) = l := by
  intro l
  induction l with
  | nil => intro d; rfl
  | cons a t ih =>
    intro d
    rw [List.length_cons, List.range_succ_eq_map, List.map_cons, List.map_map]
    have h : ((fun i => (a :: t).getD i d) ∘ Nat.succ) = fun i => t.getD i d := rfl
    rw [h, ih]
    rfl

theorem map_getD_range'_one {α : Type} (l : List α) (d : α) :
    (List.range' 1 l.length).map (fun p => l.getD (p - 1) d) = l := by
  rw [List.range'_eq_map_range, List.map_map]
  have h : ((fun p => l.getD (p - 1) d) ∘ (1 + ·)) = fun i => l.getD i d := by
    funext i
    simp
  rw [h, map_getD_range]

theorem filterMap_id_padded {α : Type} (pages : List α) (k : Nat) :
    ((pages.map some ++ List.replicate k none).filterMap id) = pages := by
  rw [List.filterMap_append]
  have h1 : (pages.map some).filterMap id = pages := by
    rw [List.filterMap_map]
    exact List.filterMap_some pages
  have h2 : (List.replicate k (none : Option α)).filterMap id = [] := by
    induction k with
    | zero => rfl
    | succ p ih => simp [List.replicate_succ, ih]
  rw [h1, h2, List.append_nil]

/-- The engine's output is a permutation of the padded page list. -/
theorem engine_out_perm_padded (c : ImpositionConfig) (pages : List Nat)
    (hc : supportedCombo c.style c.nupCount = true) :
    (sortSelectedPagesForBooklet pages c).Perm
      (paddedPages pages (padCount pages.length (sheetCapacity c.nupCount))) := by
  have hn : 0 < c.nupCount := nup_pos_of_supported _ _ hc
  have hcap : 0 < sheetCapacity c.nupCount := by unfold sheetCapacity; omega
  have hlenpad :
      (paddedPages pages (padCount pages.length (sheetCapacity c.nupCount))).length =
        padCount pages.length (sheetCapacity c.nupCount) := by
    unfold paddedPages
    rw [List.length_append, List.length_map, List.length_replicate]
    have := padCount_ge pages.length (sheetCapacity c.nupCount) hcap
    omega
  have hperm' : (slotPositions c
        (padCount pages.length (sheetCapacity c.nupCount))).Perm
      (List.range' 1 (padCount pages.length (sheetCapacity c.nupCount))) :=
    slotPositions_perm c
      ((pages.length + sheetCapacity c.nupCount - 1) / sheetCapacity c.nupCount) hc
  unfold sortSelectedPagesForBooklet
  refine (hperm'.map _).trans ?_
  nth_rewrite 2 [← hlenpad]
  rw [map_getD_range'_one]

/-- C5: for every supported configuration the non-blank entries of the output
are exactly the requested pages, each exactly once (as a permutation). -/
theorem pages_multiset_preserved (c : ImpositionConfig) (pages : List Nat)
    (hc : supportedCombo c.style c.nupCount = true) :
    ((sortSelectedPagesForBooklet pages c).filterMap id).Perm pages := by
  refine ((engine_out_perm_padded c pages hc).filterMap id).trans ?_
  unfold paddedPages
  rw [filterMap_id_padded]

theorem pages_multiset_preserved_witness :
    ((sortSelectedPagesForBooklet [2, 5, 9]
        ⟨4, .booklet, .long, .portrait⟩).filterMap id).Perm [2, 5, 9] :=
  pages_multiset_preserved ⟨4, .booklet, .long, .portrait⟩ [2, 5, 9] (by decide)

/-- C6: the output length is the smallest multiple of
`sheetCapacity(nupCount) = nupCount * 2` at least the requested page count,
and the extra slots are exactly the blank placeholders. -/
theorem output_length_and_blanks (c : ImpositionConfig) (pages : List Nat)
    (hc : supportedCombo c.style c.nupCount = true) :
    (sortSelectedPagesForBooklet pages c).length =
        padCount pages.length (sheetCapacity c.nupCount) ∧
    sheetCapacity c.nupCount ∣ (sortSelectedPagesForBooklet pages c).length ∧
    pages.length ≤ (sortSelectedPagesForBooklet pages c).length ∧
    (∀ t, sheetCapacity c.nupCount ∣ t → pages.length ≤ t →
      (sortSelectedPagesForBooklet pages c).length ≤ t) ∧
    (sortSelectedPagesForBooklet pages c).count none =
      (sortSelectedPagesForBooklet pages c).length - pages.length := by
  have hcap : 0 < sheetCapacity c.nupCount := by
    have := nup_pos_of_supported _ _ hc
    unfold sheetCapacity
    omega
  have hout := engine_out_perm_padded c pages hc
  have hlen : (sortSelectedPagesForBooklet pages c).length =
      padCount pages.length (sheetCapacity c.nupCount) := by
    rw [hout.length_eq]
    unfold paddedPages
    rw [List.length_append, List.length_map, List.length_replicate]
    have := padCount_ge pages.length _ hcap
    omega
  refine ⟨hlen, ?_, ?_, ?_, ?_⟩
  · rw [hlen]
    exact ⟨_, rfl⟩
  · rw [hlen]
    exact padCount_ge _ _ hcap
  · intro t hdvd hle
    rw [hlen]
    exact padCount_min _ _ _ hcap hdvd hle
  · rw [List.count_eq_countP, hout.countP_eq, ← List.count_eq_countP, hlen]
    unfold paddedPages
    rw [List.count_append]
    have h1 : (pages.map some).count none = 0 := by
      rw [List.count_eq_zero]
      simp
    rw [h1, List.count_replicate]
    simp

theorem output_length_and_blanks_witness :
    (sortSelectedPagesForBooklet [2, 5, 9] ⟨4, .booklet, .long, .portrait⟩).length = 8 ∧
    (sortSelectedPagesForBooklet [2, 5, 9] ⟨4, .booklet, .long, .portrait⟩).length ≤ 8 ∧
    (sortSelectedPagesForBooklet [2, 5, 9] ⟨4, .booklet, .long, .portrait⟩).count none = 5 := by
  have h := output_length_and_blanks ⟨4, .booklet, .long, .portrait⟩ [2, 5, 9] (by decide)
  refine ⟨h.1.trans (by decide), h.2.2.2.1 8 (by decide) (by decide), ?_⟩
  rw [h.2.2.2.2, h.1]
  decide

end Pdfcpu
